import Mathlib

/-!
Shallow embedding of the safeway_etl news pipeline (the files feed_fetcher.py,
article_processor.py, geocoder.py, database.py and config.py) together with
proofs about its specified behaviour.  Python strings are modelled as lists of
characters; external calls (the Bedrock inference backend, the Mapbox geocoder,
the PostgreSQL store, the RSS feeds) are modelled by explicit outcome values fed
to the translated control flow.
-/

namespace SafewayETL

/-- Python strings, modelled as lists of characters. -/
abbrev Str := List Char

/-- Coerce a Lean string literal to the model type. -/
def str (s : String) : Str := s.data

/-- The apostrophe character (written by code point). -/
def apos : Char := Char.ofNat 39

/-- Python str.lower for one character, restricted to ASCII plus the accented
Spanish capitals occurring in the texts this pipeline inspects. -/
def pyLowerChar (c : Char) : Char :=
  if c = 'Á' then 'á' else if c = 'É' then 'é' else if c = 'Í' then 'í'
  else if c = 'Ó' then 'ó' else if c = 'Ú' then 'ú'
  else if c = 'Ñ' then 'ñ' else if c = 'Ü' then 'ü' else c.toLower

/-- Python str.lower. -/
def pyLower (s : Str) : Str := s.map pyLowerChar

/-- Drop matching characters from the end of a string. -/
def dropTrailing (p : Char → Bool) (s : Str) : Str := (s.reverse.dropWhile p).reverse

/-- Python str.strip(): whitespace removed from both ends. -/
def pyStrip (s : Str) : Str := dropTrailing Char.isWhitespace (s.dropWhile Char.isWhitespace)

/-- Python str.strip(c): the given character removed from BOTH ends. -/
def pyStripChar (c : Char) (s : Str) : Str := dropTrailing (· == c) (s.dropWhile (· == c))

/-- Python str.replace(c, ""): every occurrence of the character removed. -/
def removeAll (c : Char) (s : Str) : Str := s.filter (· != c)

/-- Coordinate pair as delivered by the geocoder (features[0].center).  The
pipeline performs no arithmetic on the two components, so they are opaque. -/
abbrev Coord := Int × Int

/-- The article record flowing through the pipeline: the dict built by
FeedFetcher._parse_entry, enriched in place by the processing stages. -/
structure Article where
  news_source : Str
  title : Str
  description : Str
  url : Str
  date : Nat
  type : Option Str := none
  location : Option Str := none
  coordinates : Option Coord := none
  deriving DecidableEq

/-- config.VALID_CATEGORIES. -/
def VALID_CATEGORIES : List Str :=
  [str "crime", str "infrastructure", str "hazard", str "social"]

/-- config.MAX_RETRIES (environment-configurable, default 3). -/
def MAX_RETRIES : Nat := 3

/-- config.RETRY_DELAY in seconds (environment-configurable, default 10). -/
def RETRY_DELAY : Nat := 10

/-- One item of the Claude response body's content list. -/
structure ContentItem where
  ctype : Str
  text : Str
  deriving DecidableEq

/-- Outcome of one Bedrock invoke_model call as seen inside
_call_bedrock_messages: a parsed body whose content key holds the given items,
a body without the expected content structure, or a raised exception
(transport or parse error). -/
inductive CallOutcome where
  | content (items : List ContentItem)
  | noContent
  | transportError
  deriving DecidableEq

/-- ArticleProcessor._invoke_claude_messages: concatenates the text items of a
non-empty content list and strips the result; returns the empty string when
the body lacks a non-empty content list; and, when the call raises, the except
clause returns the fixed fallback text "social". -/
def invokeClaudeMessages : CallOutcome → Str
  | .content items =>
      if items.isEmpty then []
      else pyStrip (items.foldl
        (fun acc it => if it.ctype = str "text" then acc ++ it.text else acc) [])
  | .noContent => []
  | .transportError => str "social"

/-- How one awaited _invoke_claude_messages call behaves: it either returns
normally (delivering invokeClaudeMessages of the call outcome) or the await
itself raises, reaching the calling stage's own except clause. -/
inductive InvokeResult where
  | returns (o : CallOutcome)
  | raises
  deriving DecidableEq

/-- The response normalization of classify_article: strip and lower-case, strip
and lower-case again, remove every double and single quote, then strip periods
from BOTH ends (Python str.strip(".")). -/
def normalizeCategory (s : Str) : Str :=
  let c := pyLower (pyStrip s)
  pyStripChar '.' (removeAll apos (removeAll '"' (pyLower (pyStrip c))))

/-- Modelled from the claim's words, for comparison in C4: trimming,
lower-casing, stripping quotes and TRAILING periods only. -/
def claimNormalizeCategory (s : Str) : Str :=
  dropTrailing (· == '.') (removeAll apos (removeAll '"' (pyLower (pyStrip s))))

/-- ArticleProcessor.classify_article on one article and one inference call. -/
def classify_article (a : Article) (r : InvokeResult) : Option Article :=
  match r with
  | .raises => none
  | .returns o =>
    let category := normalizeCategory (invokeClaudeMessages o)
    if category ∈ VALID_CATEGORIES then some { a with type := some category } else none

/-- The country-suffix step of extract_location: ", Mexico" is appended when
neither "mexico" nor "méxico" occurs in the lower-cased location. -/
def mexicanize (t : Str) : Str :=
  if ¬ str "mexico" <:+: pyLower t ∧ ¬ str "méxico" <:+: pyLower t
  then t ++ str ", Mexico" else t

/-- ArticleProcessor.extract_location on one article and one inference call.
When the awaited call itself raises, the except clause keeps the article and
sets the country-level default location "Mexico". -/
def extract_location (a : Article) (r : InvokeResult) : Option Article :=
  match r with
  | .raises => some { a with location := some (str "Mexico") }
  | .returns o =>
    let location := pyStrip (invokeClaudeMessages o)
    if pyLower location = str "no_location" ∨ location = [] then none
    else some { a with location := some (mexicanize location) }

/-- Outcome of one attempt of Geocoder.geocode_location's request: an HTTP 200
response carrying its parsed features list (each feature stands for its center
pair), a non-200 status, or a raised exception. -/
inductive AttemptOutcome where
  | ok (features : List Coord)
  | httpError (status : Nat)
  | transportError
  deriving DecidableEq

/-- Attempts the retry loop falls through on (anything but a 200 response). -/
def retryable : AttemptOutcome → Bool
  | .ok _ => false
  | _ => true

/-- The retry loop of Geocoder.geocode_location, instrumented.  The list holds
the outcome available to each attempt slot (for attempt in range(MAX_RETRIES)),
and the result records (returned coordinates, attempts made, total delay
slept).  A 200 response returns at once — the first feature's pair, or None
when the features list is empty; any other outcome sleeps d and retries while
attempt slots remain. -/
def geocodeAttempts (d : Nat) : List AttemptOutcome → Option Coord × Nat × Nat
  | [] => (none, 0, 0)
  | .ok (c :: _) :: _ => (some c, 1, 0)
  | .ok [] :: _ => (none, 1, 0)
  | .httpError _ :: [] => (none, 1, 0)
  | .transportError :: [] => (none, 1, 0)
  | .httpError _ :: r :: rs =>
      let t := geocodeAttempts d (r :: rs)
      (t.1, t.2.1 + 1, t.2.2 + d)
  | .transportError :: r :: rs =>
      let t := geocodeAttempts d (r :: rs)
      (t.1, t.2.1 + 1, t.2.2 + d)

/-- Geocoder.geocode_location at the article level: reading article["location"]
raises (KeyError) when the field is absent; otherwise the loop result decides
whether the article gains coordinates or None is returned. -/
def geocode_location (a : Article) (outs : List AttemptOutcome) :
    Except Unit (Option Article) :=
  match a.location with
  | none => .error ()
  | some _ =>
    .ok ((geocodeAttempts RETRY_DELAY outs).1.map fun c => { a with coordinates := some c })

/-- One row of the news table (the columns insert_article writes). -/
structure Row where
  id : Nat
  news_source : Str
  title : Str
  description : Str
  coordinates : Coord
  type : Str
  date : Nat
  url : Str
  deriving DecidableEq

/-- The news table: its rows and the next value of the id sequence. -/
structure DB where
  rows : List Row
  nextId : Nat
  deriving DecidableEq

/-- The row a non-conflicting insert writes. -/
def insertedRow (db : DB) (a : Article) (c : Coord) (ty : Str) : Row :=
  { id := db.nextId, news_source := a.news_source, title := a.title,
    description := a.description, coordinates := c, type := ty,
    date := a.date, url := a.url }

/-- The store after a non-conflicting insert: the new row appended and the id
sequence advanced. -/
def insertedDB (db : DB) (a : Article) (c : Coord) (ty : Str) : DB :=
  { rows := db.rows ++ [insertedRow db a c ty], nextId := db.nextId + 1 }

/-- Database.insert_article.  The dbFails flag stands for a connection or
execution failure, which the method logs, rolls back and re-raises; reading a
missing enrichment key off the article dict likewise raises.  The statement
INSERT ... ON CONFLICT (url) DO NOTHING RETURNING id inserts nothing and
returns no id when a row with the same url already exists. -/
def insert_article (db : DB) (a : Article) (dbFails : Bool) :
    Except Unit (Option Nat × DB) :=
  if dbFails then .error ()
  else
    match a.coordinates, a.type with
    | some c, some ty =>
      if db.rows.any (fun r => r.url == a.url) then .ok (none, db)
      else .ok (some db.nextId, insertedDB db a c ty)
    | _, _ => .error ()

/-- Database.get_processed_urls: the set of stored urls, or the empty set when
the connection or query raises (the except clause returns set()). -/
def get_processed_urls (r : Except Unit (List Str)) : List Str :=
  match r with
  | .ok urls => urls
  | .error _ => []

/-- A value read off a feedparser entry field: a plain string, or (for the
content attribute) a list of items, each either a dict carrying a value string
or not a dict (modelled none). -/
inductive FieldVal where
  | s (v : Str)
  | l (items : List (Option Str))
  deriving DecidableEq

/-- Python truthiness of such a field value. -/
def fieldTruthy : FieldVal → Bool
  | .s v => !v.isEmpty
  | .l items => !items.isEmpty

/-- A feedparser entry, reduced to the attributes _parse_entry reads.  The two
parsed-date attributes stand for struct_time values already converted to the
calendar date they denote (dates are opaque). -/
structure Entry where
  link : Option Str := none
  published_parsed : Option Nat := none
  updated_parsed : Option Nat := none
  published : Option Str := none
  pubDate : Option Str := none
  updated : Option Str := none
  title : Option Str := none
  description : Option FieldVal := none
  summary : Option FieldVal := none
  content : Option FieldVal := none
  deriving DecidableEq

/-- The field-selection loop of _parse_entry: the first present and truthy
value among description, summary, content. -/
def firstTruthy : List (Option FieldVal) → Option FieldVal
  | [] => none
  | none :: rest => firstTruthy rest
  | some v :: rest => if fieldTruthy v then some v else firstTruthy rest

/-- The list normalization of _parse_entry: item.get("value", "") concatenated
over the dict items. -/
def joinContent (items : List (Option Str)) : Str :=
  items.foldl (fun acc it => acc ++ it.getD []) []

/-- The description extracted by _parse_entry before the emptiness check. -/
def extractedDescription (e : Entry) : Option Str :=
  match firstTruthy [e.description, e.summary, e.content] with
  | none => none
  | some (.s v) => some v
  | some (.l items) => some (joinContent items)

/-- The string-date fallback loop of _parse_entry: the first present, truthy
date string that fromisoformat parses; parse failures are swallowed and the
loop continues. -/
def firstDateStr (fromiso : Str → Option Nat) : List (Option Str) → Option Nat
  | [] => none
  | none :: rest => firstDateStr fromiso rest
  | some sdate :: rest =>
    if sdate.isEmpty then firstDateStr fromiso rest
    else
      match fromiso sdate with
      | some d => some d
      | none => firstDateStr fromiso rest

/-- FeedFetcher._parse_entry.  fromiso stands for datetime.fromisoformat (none
marking a parse failure) and today for datetime.utcnow().date(). -/
def parseEntry (fromiso : Str → Option Nat) (today : Nat) (e : Entry) (src : Str) :
    Option Article :=
  match e.link with
  | none => none
  | some url =>
    if url.isEmpty then none
    else
      let published :=
        match e.published_parsed with
        | some d => d
        | none =>
          match e.updated_parsed with
          | some d => d
          | none =>
            match firstDateStr fromiso [e.published, e.pubDate, e.updated] with
            | some d => d
            | none => today
      match e.title, extractedDescription e with
      | some t, some desc =>
        if t.isEmpty || desc.isEmpty then none
        else some { news_source := src, title := t, description := desc,
                    url := url, date := published }
      | _, _ => none

/-- The per-entry body of fetch_all_feeds' inner loop: parse the entry, and
collect-and-mark it when it parsed and its url is not in the processed set. -/
def processEntry (fromiso : Str → Option Nat) (today : Nat) (src : Str)
    (acc : List Article × List Str) (e : Entry) : List Article × List Str :=
  match parseEntry fromiso today e src with
  | none => acc
  | some a => if a.url ∈ acc.2 then acc else (acc.1 ++ [a], a.url :: acc.2)

/-- One gathered feed result: none stands for an exception or a result without
entries (skipped), otherwise the feed's source name with its entries. -/
def processFeed (fromiso : Str → Option Nat) (today : Nat)
    (acc : List Article × List Str) (feed : Option (Str × List Entry)) :
    List Article × List Str :=
  match feed with
  | none => acc
  | some (src, entries) => entries.foldl (processEntry fromiso today src) acc

/-- FeedFetcher.fetch_all_feeds on the gathered per-feed results, threading the
in-memory processed-url set and returning the new articles together with the
updated set. -/
def fetchAllFeeds (fromiso : Str → Option Nat) (today : Nat) (p : List Str)
    (results : List (Option (Str × List Entry))) : List Article × List Str :=
  results.foldl (processFeed fromiso today) ([], p)

/-- The successive fetch_all_feeds calls of one process run (the polling loop),
threading the processed-url set from call to call. -/
def runFetches (fromiso : Str → Option Nat) (today : Nat) :
    List Str → List (List (Option (Str × List Entry))) → List Article × List Str
  | p, [] => ([], p)
  | p, b :: bs =>
    let r1 := fetchAllFeeds fromiso today p b
    let r2 := runFetches fromiso today r1.2 bs
    (r1.1 ++ r2.1, r2.2)

/-- The dedup-set seeding at FeedFetcher startup:
self.processed_urls = self.db.get_processed_urls() or set(). -/
def seedProcessedUrls (r : Except Unit (List Str)) : List Str :=
  let u := get_processed_urls r
  if u.isEmpty then [] else u

/-- The article queue's completion counter (asyncio.Queue unfinished tasks). -/
structure QueueState where
  unfinished : Nat
  deriving DecidableEq

/-- asyncio.Queue.task_done: raises ValueError when called more times than
items were enqueued, otherwise decrements the counter. -/
def task_done (q : QueueState) : Except Unit QueueState :=
  if q.unfinished = 0 then .error () else .ok ⟨q.unfinished - 1⟩

/-- A task_done call whose ValueError, if raised, is swallowed by the worker's
except clause: the counter is unchanged by a raising call, and in Nat
subtraction 0 - 1 = 0, so both cases are the truncated decrement. -/
def taskDoneCaught (q : QueueState) : QueueState := ⟨q.unfinished - 1⟩

/-- What happens to a dequeued article. -/
inductive Event where
  | persisted (a : Article) (id : Option Nat)
  | discarded
  deriving DecidableEq

/-- The four stages of process_articles. -/
inductive Stage where
  | classify
  | extractLoc
  | geocode
  | persist
  deriving DecidableEq

/-- The external responses one article's stage sequence runs against. -/
structure StageOracle where
  classifyCall : InvokeResult
  locationCall : InvokeResult
  geoOutcomes : List AttemptOutcome
  dbFails : Bool
  deriving DecidableEq

/-- Result of the try/except body of one worker iteration, instrumented with
the trace of stages entered and the article handed to insert_article. -/
structure IterResult where
  event : Event
  db : DB
  q : QueueState
  trace : List Stage
  persistArg : Option Article
  deriving DecidableEq

/-- The try/except body of one process_articles iteration: the stage sequence
with its discard short-circuits (each discard path calls task_done before
continue), the surrounding except clause swallowing stage exceptions. -/
def runStages (a : Article) (o : StageOracle) (db : DB) (q : QueueState) : IterResult :=
  match classify_article a o.classifyCall with
  | none => ⟨.discarded, db, taskDoneCaught q, [.classify], none⟩
  | some a1 =>
    match extract_location a1 o.locationCall with
    | none => ⟨.discarded, db, taskDoneCaught q, [.classify, .extractLoc], none⟩
    | some a2 =>
      match geocode_location a2 o.geoOutcomes with
      | .error _ => ⟨.discarded, db, q, [.classify, .extractLoc, .geocode], none⟩
      | .ok none => ⟨.discarded, db, taskDoneCaught q, [.classify, .extractLoc, .geocode], none⟩
      | .ok (some a3) =>
        match insert_article db a3 o.dbFails with
        | .error _ =>
            ⟨.discarded, db, q, [.classify, .extractLoc, .geocode, .persist], some a3⟩
        | .ok (id, db2) =>
            ⟨.persisted a3 id, db2, q, [.classify, .extractLoc, .geocode, .persist], some a3⟩

/-- One full worker iteration: the body above followed by the finally clause's
task_done call, whose ValueError (raised when the counter is already
exhausted) escapes the iteration and terminates the worker coroutine. -/
def workerIteration (a : Article) (o : StageOracle) (db : DB) (q : QueueState) :
    Except Unit (Event × DB × QueueState) :=
  let r := runStages a o db q
  match task_done r.q with
  | .error _ => .error ()
  | .ok q2 => .ok (r.event, r.db, q2)

/-- ArticleProcessor.process_articles over a finite run of dequeued articles;
an error value marks the worker terminating with an uncaught exception. -/
def process_articles : List (Article × StageOracle) → DB → QueueState →
    Except Unit (List Event × DB × QueueState)
  | [], db, q => .ok ([], db, q)
  | (a, o) :: rest, db, q =>
    match workerIteration a o db q with
    | .error e => .error e
    | .ok (ev, db2, q2) =>
      match process_articles rest db2 q2 with
      | .error e => .error e
      | .ok (evs, db3, q3) => .ok (ev :: evs, db3, q3)

/-- A concrete ingested article for concrete evaluations. -/
def sampleArticle : Article :=
  { news_source := str "feed", title := str "t", description := str "d",
    url := str "u", date := 0 }

/-- A fresh store. -/
def dbEmpty : DB := { rows := [], nextId := 1 }

/-- Stage responses whose classification answer is the DISCARD sentinel. -/
def discardOracle : StageOracle :=
  { classifyCall := .returns (.content [{ ctype := str "text", text := str "DISCARD" }]),
    locationCall := .returns .transportError, geoOutcomes := [], dbFails := false }

/-! ## Theorems -/

/-- C1: evaluation of extract_location at a transport error of its inference
call.  The call's internal except clause returns the category fallback
"social", so the article is kept (not discarded) but annotated with the
location "social, Mexico" — not with the hardcoded country-level fallback
"Mexico" of extract_location's own except branch, which transport errors never
reach. -/
theorem extract_location_transport_social (a : Article) :
    extract_location a (.returns .transportError)
      = some { a with location := some (str "social, Mexico") } := rfl

/-- C2: evaluation of the worker loop at a failing input.  With one enqueued
article (completion counter 1) whose classification response is the DISCARD
sentinel, the discard path calls task_done before continue and the finally
clause calls task_done again; the second call exceeds the number of enqueued
items, so it raises and the worker terminates with an uncaught exception. -/
theorem worker_crash_on_discard :
    process_articles [(sampleArticle, discardOracle)] dbEmpty ⟨1⟩ = .error () := rfl

/-- C4 counterexample: for the classification response ".crime", the claim's
normalization (which strips only trailing periods) yields ".crime", outside the
valid-category enumeration, so the claim predicts a discard — but
classify_article accepts the article with category "crime", because Python
str.strip(".") removes leading periods as well. -/
theorem classify_claim_counterexample :
    claimNormalizeCategory (str ".crime") ∉ VALID_CATEGORIES
    ∧ classify_article sampleArticle
        (.returns (.content [{ ctype := str "text", text := str ".crime" }]))
        = some { sampleArticle with type := some (str "crime") } := by
  exact ⟨by decide, rfl⟩

/-- C4 (amended): for every classification response, classify_article
normalizes it by trimming, lower-casing, removing quotes and stripping LEADING
AND TRAILING periods, returns none exactly when the normalized text is not in
the valid-category enumeration, and otherwise returns the article with its
category set to the normalized text. -/
theorem classify_normalization (a : Article) (o : CallOutcome) :
    (classify_article a (.returns o) = none
      ↔ normalizeCategory (invokeClaudeMessages o) ∉ VALID_CATEGORIES)
    ∧ (normalizeCategory (invokeClaudeMessages o) ∈ VALID_CATEGORIES →
        classify_article a (.returns o)
          = some { a with type := some (normalizeCategory (invokeClaudeMessages o)) }) := by
  by_cases hm : normalizeCategory (invokeClaudeMessages o) ∈ VALID_CATEGORIES <;>
    simp [classify_article, hm]

/-- Witness for C4's amended theorem at a concrete response "crime". -/
theorem classify_normalization_witness :
    classify_article sampleArticle
        (.returns (.content [{ ctype := str "text", text := str "crime" }]))
      = some { sampleArticle with
          type := some (normalizeCategory (invokeClaudeMessages
            (.content [{ ctype := str "text", text := str "crime" }]))) } :=
  (classify_normalization sampleArticle
    (.content [{ ctype := str "text", text := str "crime" }])).2 (by decide)

/-- Whatever mexicanize produces mentions mexico or méxico case-insensitively. -/
theorem mexicanize_mentions (t : Str) :
    str "mexico" <:+: pyLower (mexicanize t) ∨ str "méxico" <:+: pyLower (mexicanize t) := by
  by_cases h : ¬ str "mexico" <:+: pyLower t ∧ ¬ str "méxico" <:+: pyLower t
  · left
    have hm : mexicanize t = t ++ str ", Mexico" := by simp [mexicanize, h]
    have hl : pyLower (mexicanize t) = pyLower t ++ str ", mexico" := by
      rw [hm]; simp [pyLower, List.map_append]; rfl
    rw [hl]
    refine ⟨pyLower t ++ str ", ", [], ?_⟩
    simp [str]
  · have hm : mexicanize t = t := by simp [mexicanize, h]
    rw [hm]
    rcases not_and_or.mp h with h1 | h1
    · exact Or.inl (not_not.mp h1)
    · exact Or.inr (not_not.mp h1)

/-- C5: for every location response, extract_location discards exactly when the
stripped response is empty or equals the sentinel "no_location"
case-insensitively; every other response yields the article annotated with the
mexicanized location, which mentions "mexico" or "méxico"
(", Mexico" having been appended when neither was present). -/
theorem extract_location_response_semantics (a : Article) (o : CallOutcome) :
    (extract_location a (.returns o) = none
      ↔ pyStrip (invokeClaudeMessages o) = []
        ∨ pyLower (pyStrip (invokeClaudeMessages o)) = str "no_location")
    ∧ (pyStrip (invokeClaudeMessages o) ≠ [] →
        pyLower (pyStrip (invokeClaudeMessages o)) ≠ str "no_location" →
        extract_location a (.returns o)
            = some { a with location := some (mexicanize (pyStrip (invokeClaudeMessages o))) }
          ∧ (str "mexico" <:+: pyLower (mexicanize (pyStrip (invokeClaudeMessages o)))
             ∨ str "méxico" <:+: pyLower (mexicanize (pyStrip (invokeClaudeMessages o))))) := by
  constructor
  · by_cases hc : pyLower (pyStrip (invokeClaudeMessages o)) = str "no_location"
        ∨ pyStrip (invokeClaudeMessages o) = [] <;>
      simp [extract_location, hc] <;> tauto
  · intro h1 h2
    have hc : ¬ (pyLower (pyStrip (invokeClaudeMessages o)) = str "no_location"
        ∨ pyStrip (invokeClaudeMessages o) = []) := by tauto
    exact ⟨by simp [extract_location, hc], mexicanize_mentions _⟩

/-- Witness for C5 at the concrete response "Centro". -/
theorem extract_location_response_semantics_witness :
    extract_location sampleArticle
        (.returns (.content [{ ctype := str "text", text := str "Centro" }]))
      = some { sampleArticle with
          location := some (mexicanize (pyStrip (invokeClaudeMessages
            (.content [{ ctype := str "text", text := str "Centro" }])))) }
    ∧ (str "mexico" <:+: pyLower (mexicanize (pyStrip (invokeClaudeMessages
          (.content [{ ctype := str "text", text := str "Centro" }]))))
       ∨ str "méxico" <:+: pyLower (mexicanize (pyStrip (invokeClaudeMessages
          (.content [{ ctype := str "text", text := str "Centro" }]))))) :=
  (extract_location_response_semantics sampleArticle
    (.content [{ ctype := str "text", text := str "Centro" }])).2 (by decide) (by decide)

/-- C6: the geocoding retry loop: a run of nothing but transport errors makes
exactly one attempt per available slot and returns none, sleeping the fixed
delay between consecutive attempts; a 200 response with at least one match
returns the first match at once; a 200 response with zero matches returns none
at once, with no further retry; only non-200 outcomes are retried, each retry
separated by the fixed delay; and geocode_location on an article with a
location returns the loop result mapped onto the article's coordinates. -/
theorem geocode_retry_semantics (d : Nat) :
    (∀ outs : List AttemptOutcome, outs ≠ [] →
        (∀ x ∈ outs, x = AttemptOutcome.transportError) →
        geocodeAttempts d outs = (none, outs.length, (outs.length - 1) * d))
    ∧ (∀ (c : Coord) (cs : List Coord) (rest : List AttemptOutcome),
        geocodeAttempts d (AttemptOutcome.ok (c :: cs) :: rest) = (some c, 1, 0))
    ∧ (∀ rest : List AttemptOutcome,
        geocodeAttempts d (AttemptOutcome.ok [] :: rest) = (none, 1, 0))
    ∧ (∀ (x : AttemptOutcome) (rest : List AttemptOutcome),
        retryable x = true → rest ≠ [] →
        geocodeAttempts d (x :: rest) =
          ((geocodeAttempts d rest).1, (geocodeAttempts d rest).2.1 + 1,
            (geocodeAttempts d rest).2.2 + d))
    ∧ (∀ (a : Article) (outs : List AttemptOutcome) (l : Str), a.location = some l →
        geocode_location a outs
          = .ok ((geocodeAttempts RETRY_DELAY outs).1.map
              fun c => { a with coordinates := some c })) := by
  have hstep : ∀ (x : AttemptOutcome) (rest : List AttemptOutcome),
      retryable x = true → rest ≠ [] →
      geocodeAttempts d (x :: rest) =
        ((geocodeAttempts d rest).1, (geocodeAttempts d rest).2.1 + 1,
          (geocodeAttempts d rest).2.2 + d) := by
    intro x rest hx hr
    match x, rest with
    | .ok f, _ => simp [retryable] at hx
    | .httpError s, [] => exact absurd rfl hr
    | .transportError, [] => exact absurd rfl hr
    | .httpError s, r :: rs => rfl
    | .transportError, r :: rs => rfl
  refine ⟨?_, fun c cs rest => rfl, fun rest => rfl, hstep, ?_⟩
  · intro outs
    induction outs with
    | nil => intro h; exact absurd rfl h
    | cons x rest ih =>
      intro _ hall
      have hx : x = .transportError := hall x (by simp)
      subst hx
      cases rest with
      | nil => simp [geocodeAttempts]
      | cons r rs =>
        have hres := ih (by simp) (fun y hy => hall y (List.mem_cons_of_mem _ hy))
        have := hstep .transportError (r :: rs) rfl (by simp)
        rw [this, hres]
        simp [Nat.succ_mul, Nat.add_comm]
  · intro a outs l hl
    simp [geocode_location, hl]

/-- Witness for C6: three transport failures with delay 10 give exactly three
attempts, no result, and two sleeps of 10. -/
theorem geocode_retry_semantics_witness :
    geocodeAttempts 10
        [AttemptOutcome.transportError, AttemptOutcome.transportError,
          AttemptOutcome.transportError]
      = (none, 3, 20) :=
  (geocode_retry_semantics 10).1
    [AttemptOutcome.transportError, AttemptOutcome.transportError,
      AttemptOutcome.transportError] (by decide) (by decide)

/-- C7: insert_article is idempotent on url.  Inserting a fully-enriched
article whose url is not yet stored creates exactly one row and returns the
generated id; re-inserting the same url afterwards — or inserting any article
whose url is already stored — is a no-op returning none (not an error) that
leaves the store unchanged. -/
theorem insert_article_idempotent (db : DB) (a : Article) (c : Coord) (ty : Str)
    (hc : a.coordinates = some c) (ht : a.type = some ty) :
    ((∀ r ∈ db.rows, r.url ≠ a.url) →
      ∃ db2, insert_article db a false = .ok (some db.nextId, db2)
        ∧ db2.rows.length = db.rows.length + 1
        ∧ (∃ r ∈ db2.rows, r.url = a.url)
        ∧ insert_article db2 a false = .ok (none, db2))
    ∧ ((∃ r ∈ db.rows, r.url = a.url) → insert_article db a false = .ok (none, db)) := by
  constructor
  · intro hfresh
    have hany : db.rows.any (fun r => r.url == a.url) = false := by
      rw [List.any_eq_false]
      intro r hr
      simpa using hfresh r hr
    refine ⟨insertedDB db a c ty, ?_, ?_, ?_, ?_⟩
    · simp [insert_article, hc, ht, hany]
    · simp [insertedDB]
    · exact ⟨insertedRow db a c ty, by simp [insertedDB], rfl⟩
    · have hany2 : (insertedDB db a c ty).rows.any (fun r => r.url == a.url) = true := by
        simp [insertedDB, insertedRow]
      simp [insert_article, hc, ht, hany2]
  · intro ⟨r, hr, hu⟩
    have hany : db.rows.any (fun x => x.url == a.url) = true :=
      List.any_eq_true.mpr ⟨r, hr, by simp [hu]⟩
    simp [insert_article, hc, ht, hany]

/-- The sample article enriched with a category and coordinates. -/
def articleEnriched : Article :=
  { sampleArticle with
      type := some (str "crime")
      location := some (str "Centro, Mexico")
      coordinates := some ((1 : Int), (2 : Int)) }

/-- Witness for C7: a fresh insert into the empty store followed by a
re-insert of the same url. -/
theorem insert_article_idempotent_witness :
    ∃ db2, insert_article dbEmpty articleEnriched false = .ok (some dbEmpty.nextId, db2)
      ∧ db2.rows.length = dbEmpty.rows.length + 1
      ∧ (∃ r ∈ db2.rows, r.url = articleEnriched.url)
      ∧ insert_article db2 articleEnriched false = .ok (none, db2) :=
  (insert_article_idempotent dbEmpty articleEnriched ((1 : Int), (2 : Int))
    (str "crime") (by decide) (by decide)).1 (by simp [dbEmpty])

/-- A successful classification produces the article with a valid category. -/
theorem classify_article_some {a a1 : Article} {r : InvokeResult}
    (h : classify_article a r = some a1) :
    ∃ c, c ∈ VALID_CATEGORIES ∧ a1 = { a with type := some c } := by
  cases r with
  | raises => simp [classify_article] at h
  | returns o =>
    by_cases hm : normalizeCategory (invokeClaudeMessages o) ∈ VALID_CATEGORIES
    · refine ⟨_, hm, ?_⟩
      simp [classify_article, hm] at h
      exact h.symm
    · simp [classify_article, hm] at h

/-- A successful location extraction only sets the location field. -/
theorem extract_location_some {a a1 : Article} {r : InvokeResult}
    (h : extract_location a r = some a1) :
    ∃ l, a1 = { a with location := some l } := by
  cases r with
  | raises =>
    simp only [extract_location, Option.some.injEq] at h
    exact ⟨_, h.symm⟩
  | returns o =>
    by_cases hc : pyLower (pyStrip (invokeClaudeMessages o)) = str "no_location"
        ∨ pyStrip (invokeClaudeMessages o) = []
    · simp [extract_location, hc] at h
    · simp [extract_location, hc] at h
      exact ⟨_, h.symm⟩

/-- A successful geocoding only sets the coordinates field. -/
theorem geocode_location_ok_some {a a1 : Article} {outs : List AttemptOutcome}
    (h : geocode_location a outs = .ok (some a1)) :
    ∃ c, a1 = { a with coordinates := some c } := by
  cases hl : a.location with
  | none => simp [geocode_location, hl] at h
  | some l =>
    cases hg : (geocodeAttempts RETRY_DELAY outs).1 with
    | none => simp [geocode_location, hl, hg] at h
    | some c =>
      simp [geocode_location, hl, hg] at h
      exact ⟨c, h.symm⟩

/-- C3: per article the stages run strictly in the order classify →
extract-location → geocode → persist — the trace of entered stages is always a
prefix of that sequence, so a discarding stage cuts off all later stages — and
every article handed to the persist call carries a category from the fixed
enumeration, a location and coordinates; persisted events come from exactly
those articles. -/
theorem stage_order_enrichment (a : Article) (o : StageOracle) (db : DB) (q : QueueState) :
    (runStages a o db q).trace
        <+: [Stage.classify, Stage.extractLoc, Stage.geocode, Stage.persist]
    ∧ (∀ a3, (runStages a o db q).persistArg = some a3 →
        (runStages a o db q).trace
            = [Stage.classify, Stage.extractLoc, Stage.geocode, Stage.persist]
        ∧ (∃ c, a3.type = some c ∧ c ∈ VALID_CATEGORIES)
        ∧ (∃ l, a3.location = some l)
        ∧ (∃ cc, a3.coordinates = some cc))
    ∧ (∀ a3 i, (runStages a o db q).event = .persisted a3 i →
        (runStages a o db q).persistArg = some a3) := by
  cases hc : classify_article a o.classifyCall with
  | none =>
    simp only [runStages, hc]
    exact ⟨⟨[Stage.extractLoc, Stage.geocode, Stage.persist], rfl⟩, by simp, by simp⟩
  | some a1 =>
    obtain ⟨c, hcv, hca⟩ := classify_article_some hc
    cases he : extract_location a1 o.locationCall with
    | none =>
      simp only [runStages, hc, he]
      exact ⟨⟨[Stage.geocode, Stage.persist], rfl⟩, by simp, by simp⟩
    | some a2 =>
      obtain ⟨l, hla⟩ := extract_location_some he
      cases hg : geocode_location a2 o.geoOutcomes with
      | error u =>
        simp only [runStages, hc, he, hg]
        exact ⟨⟨[Stage.persist], rfl⟩, by simp, by simp⟩
      | ok go =>
        cases go with
        | none =>
          simp only [runStages, hc, he, hg]
          exact ⟨⟨[Stage.persist], rfl⟩, by simp, by simp⟩
        | some a3 =>
          obtain ⟨cc, hga⟩ := geocode_location_ok_some hg
          have henr : (∃ c, a3.type = some c ∧ c ∈ VALID_CATEGORIES)
              ∧ (∃ l, a3.location = some l) ∧ (∃ cc, a3.coordinates = some cc) := by
            subst hga hla hca
            exact ⟨⟨c, rfl, hcv⟩, ⟨l, rfl⟩, ⟨cc, rfl⟩⟩
          cases hi : insert_article db a3 o.dbFails with
          | error u =>
            simp only [runStages, hc, he, hg, hi]
            refine ⟨⟨[], by simp⟩, ?_, by simp⟩
            intro a4 h4
            rw [Option.some.injEq] at h4
            subst h4
            exact ⟨by trivial, henr⟩
          | ok p =>
            obtain ⟨i2, db2⟩ := p
            simp only [runStages, hc, he, hg, hi]
            refine ⟨⟨[], by simp⟩, ?_, ?_⟩
            · intro a4 h4
              rw [Option.some.injEq] at h4
              subst h4
              exact ⟨by trivial, henr⟩
            · intro a4 i h4
              injection h4 with h5 h6
              rw [h5]

/-- Stage responses that carry one article through all four stages. -/
def okOracle : StageOracle :=
  { classifyCall := .returns (.content [{ ctype := str "text", text := str "crime" }]),
    locationCall := .returns (.content [{ ctype := str "text", text := str "Centro" }]),
    geoOutcomes := [.ok [((1 : Int), (2 : Int))]], dbFails := false }

/-- Witness for C3: a fully successful run reaches the persist call with the
full trace and a fully-enriched article. -/
theorem stage_order_enrichment_witness :
    (runStages sampleArticle okOracle dbEmpty ⟨2⟩).trace
        = [Stage.classify, Stage.extractLoc, Stage.geocode, Stage.persist]
    ∧ (∃ c, articleEnriched.type = some c ∧ c ∈ VALID_CATEGORIES)
    ∧ (∃ l, articleEnriched.location = some l)
    ∧ (∃ cc, articleEnriched.coordinates = some cc) :=
  (stage_order_enrichment sampleArticle okOracle dbEmpty ⟨2⟩).2.1 articleEnriched (by decide)

/-- Pairwise-distinct urls. -/
def urlDistinct (xs : List Article) : Prop :=
  xs.Pairwise (fun x y => x.url ≠ y.url)

/-- Invariant of the dedup fold relative to the initial processed set p0:
collected articles are marked in the current set, none of them was in p0, their
urls are pairwise distinct, and p0 stays contained in the current set. -/
def DedupInv (p0 : List Str) (acc : List Article × List Str) : Prop :=
  (∀ a ∈ acc.1, a.url ∈ acc.2) ∧ (∀ a ∈ acc.1, a.url ∉ p0)
    ∧ urlDistinct acc.1 ∧ (∀ u ∈ p0, u ∈ acc.2)

theorem processEntry_inv {p0 : List Str} {acc : List Article × List Str}
    (h : DedupInv p0 acc) (fromiso : Str → Option Nat) (today : Nat) (src : Str)
    (e : Entry) : DedupInv p0 (processEntry fromiso today src acc e) := by
  obtain ⟨h1, h2, h3, h4⟩ := h
  unfold processEntry
  cases hp : parseEntry fromiso today e src with
  | none => exact ⟨h1, h2, h3, h4⟩
  | some a =>
    by_cases hmem : a.url ∈ acc.2
    · simp only [hmem, if_pos]
      exact ⟨h1, h2, h3, h4⟩
    · simp only [hmem, if_neg, not_false_iff]
      refine ⟨?_, ?_, ?_, ?_⟩
      · intro x hx
        rcases List.mem_append.mp hx with hx | hx
        · exact List.mem_cons_of_mem _ (h1 x hx)
        · rw [List.mem_singleton.mp hx]
          exact List.mem_cons_self _ _
      · intro x hx
        rcases List.mem_append.mp hx with hx | hx
        · exact h2 x hx
        · rw [List.mem_singleton.mp hx]
          exact fun hc => hmem (h4 _ hc)
      · rw [urlDistinct, List.pairwise_append]
        refine ⟨h3, List.pairwise_singleton _ _, ?_⟩
        intro x hx y hy heq
        rw [List.mem_singleton.mp hy] at heq
        exact hmem (heq ▸ h1 x hx)
      · exact fun u hu => List.mem_cons_of_mem _ (h4 u hu)

theorem foldl_processEntry_inv {p0 : List Str} (fromiso : Str → Option Nat)
    (today : Nat) (src : Str) (l : List Entry) :
    ∀ acc, DedupInv p0 acc →
      DedupInv p0 (l.foldl (processEntry fromiso today src) acc) := by
  induction l with
  | nil => exact fun acc h => h
  | cons e rest ih =>
    intro acc h
    exact ih _ (processEntry_inv h fromiso today src e)

theorem processFeed_inv {p0 : List Str} {acc : List Article × List Str}
    (h : DedupInv p0 acc) (fromiso : Str → Option Nat) (today : Nat)
    (feed : Option (Str × List Entry)) :
    DedupInv p0 (processFeed fromiso today acc feed) := by
  unfold processFeed
  cases feed with
  | none => exact h
  | some sf => exact foldl_processEntry_inv fromiso today sf.1 sf.2 acc h

/-- Folding feed results preserves the invariant. -/
theorem foldl_over_feeds {p0 : List Str} (fromiso : Str → Option Nat) (today : Nat)
    (results : List (Option (Str × List Entry))) :
    ∀ acc, DedupInv p0 acc →
      DedupInv p0 (results.foldl (processFeed fromiso today) acc) := by
  induction results with
  | nil => exact fun acc h => h
  | cons f rest ih =>
    intro acc h
    exact ih _ (processFeed_inv h fromiso today f)

theorem fetchAllFeeds_inv (fromiso : Str → Option Nat) (today : Nat)
    (p : List Str) (results : List (Option (Str × List Entry))) :
    DedupInv p (fetchAllFeeds fromiso today p results) :=
  foldl_over_feeds fromiso today results ([], p)
    ⟨by simp, by simp, List.Pairwise.nil, fun u hu => hu⟩

/-- The invariant lifted over a whole run of fetch_all_feeds calls. -/
theorem runFetches_inv (fromiso : Str → Option Nat) (today : Nat)
    (bs : List (List (Option (Str × List Entry)))) :
    ∀ p : List Str,
      (∀ a ∈ (runFetches fromiso today p bs).1, a.url ∈ (runFetches fromiso today p bs).2)
      ∧ (∀ a ∈ (runFetches fromiso today p bs).1, a.url ∉ p)
      ∧ urlDistinct (runFetches fromiso today p bs).1
      ∧ (∀ u ∈ p, u ∈ (runFetches fromiso today p bs).2) := by
  induction bs with
  | nil =>
    intro p
    exact ⟨by simp [runFetches], by simp [runFetches], by simp [runFetches, urlDistinct],
      by simp [runFetches]⟩
  | cons b rest ih =>
    intro p
    obtain ⟨f1, f2, f3, f4⟩ := fetchAllFeeds_inv fromiso today p b
    obtain ⟨g1, g2, g3, g4⟩ := ih (fetchAllFeeds fromiso today p b).2
    simp only [runFetches]
    refine ⟨?_, ?_, ?_, ?_⟩
    · intro a ha
      rcases List.mem_append.mp ha with ha | ha
      · exact g4 _ (f1 a ha)
      · exact g1 a ha
    · intro a ha
      rcases List.mem_append.mp ha with ha | ha
      · exact f2 a ha
      · exact fun hc => g2 a ha (f4 _ hc)
    · rw [urlDistinct, List.pairwise_append]
      refine ⟨f3, g3, ?_⟩
      intro x hx y hy heq
      exact g2 y hy (heq ▸ f1 x hx)
    · exact fun u hu => g4 u (f4 u hu)

/-- C8: across a whole process run — the dedup set seeded with the store's
known urls, then threaded through the successive fetch_all_feeds calls — no
produced article carries a url from the seed set, the urls of all produced
articles are pairwise distinct (a url produced by an earlier fetch, whether or
not ever fully processed, is never produced again), and every produced url is
marked in the final set. -/
theorem fetch_dedup_run (fromiso : Str → Option Nat) (today : Nat) (seed : List Str)
    (bs : List (List (Option (Str × List Entry)))) :
    (∀ u ∈ seed, ∀ a ∈ (runFetches fromiso today seed bs).1, a.url ≠ u)
    ∧ urlDistinct (runFetches fromiso today seed bs).1
    ∧ (∀ a ∈ (runFetches fromiso today seed bs).1,
        a.url ∈ (runFetches fromiso today seed bs).2) := by
  obtain ⟨h1, h2, h3, h4⟩ := runFetches_inv fromiso today bs seed
  exact ⟨fun u hu a ha heq => h2 a ha (heq ▸ hu), h3, h1⟩

/-- A fromisoformat stub that parses nothing. -/
def fromisoNone : Str → Option Nat := fun _ => none

/-- A well-formed entry with url "v". -/
def entryV : Entry :=
  { link := some (str "v"), title := some (str "t"), description := some (.s (str "d")) }

/-- The article entryV parses to. -/
def articleV : Article :=
  { news_source := str "feed", title := str "t", description := str "d",
    url := str "v", date := 0 }

/-- Witness for C8: with seed url "u", the article produced from entryV does
not carry the seeded url. -/
theorem fetch_dedup_run_witness : articleV.url ≠ str "u" :=
  (fetch_dedup_run fromisoNone 0 [str "u"] [[some (str "feed", [entryV])]]).1
    (str "u") (by decide) articleV (by decide)

/-- C9: an entry whose extracted title or extracted description is missing or
empty is dropped by _parse_entry, and every article it produces has a
non-empty title and a non-empty description. -/
theorem parse_entry_nonempty (fromiso : Str → Option Nat) (today : Nat)
    (e : Entry) (src : Str) :
    ((e.title = none ∨ e.title = some [] ∨ extractedDescription e = none
        ∨ extractedDescription e = some []) →
      parseEntry fromiso today e src = none)
    ∧ (∀ a, parseEntry fromiso today e src = some a →
        a.title ≠ [] ∧ a.description ≠ []) := by
  cases hl : e.link with
  | none => simp [parseEntry, hl]
  | some url =>
    by_cases hu : url.isEmpty
    · simp [parseEntry, hl, hu]
    · cases ht : e.title with
      | none => simp [parseEntry, hl, hu, ht]
      | some t =>
        cases hd : extractedDescription e with
        | none => simp [parseEntry, hl, hu, ht, hd]
        | some desc =>
          by_cases hempty : t.isEmpty || desc.isEmpty
          · constructor
            · intro _
              simp [parseEntry, hl, hu, ht, hd, hempty]
            · intro a ha
              simp [parseEntry, hl, hu, ht, hd, hempty] at ha
          · constructor
            · intro hcase
              exfalso
              rcases hcase with hc | hc | hc | hc
              · exact Option.noConfusion hc
              · rw [Option.some.injEq] at hc
                subst hc
                simp at hempty
              · exact Option.noConfusion hc
              · rw [Option.some.injEq] at hc
                subst hc
                simp at hempty
            · intro a ha
              simp only [parseEntry, hl, ht, hd] at ha
              rw [if_neg hu, if_neg hempty, Option.some.injEq] at ha
              subst ha
              constructor
              · intro hx
                exact hempty (by simp [show t = [] from hx])
              · intro hx
                exact hempty (by simp [show desc = [] from hx])

/-- An entry with an empty title. -/
def entryNoTitle : Entry :=
  { link := some (str "v"), title := some [], description := some (.s (str "d")) }

/-- Witness for C9: the empty-title entry is dropped. -/
theorem parse_entry_nonempty_witness :
    parseEntry fromisoNone 0 entryNoTitle (str "feed") = none :=
  (parse_entry_nonempty fromisoNone 0 entryNoTitle (str "feed")).1 (by decide)

/-- C10: when the store's known-url query fails, get_processed_urls returns
the empty set rather than propagating the error, FeedFetcher seeds its dedup
set empty, and a previously stored entry therefore passes the in-memory filter
again — in-memory deduplication is disabled for the run. -/
theorem processed_urls_error_fallback (fromiso : Str → Option Nat) (today : Nat)
    (src : Str) (e : Entry) (a : Article) :
    get_processed_urls (.error ()) = []
    ∧ seedProcessedUrls (.error ()) = []
    ∧ (parseEntry fromiso today e src = some a →
        fetchAllFeeds fromiso today (seedProcessedUrls (.error ())) [some (src, [e])]
          = ([a], [a.url])) := by
  refine ⟨rfl, rfl, fun h => ?_⟩
  simp [fetchAllFeeds, processFeed, processEntry, seedProcessedUrls,
    get_processed_urls, h]

/-- Witness for C10: the seeding falls back to the empty set and entryV (with
a url already known to the store whose query failed) is produced again. -/
theorem processed_urls_error_fallback_witness :
    fetchAllFeeds fromisoNone 0 (seedProcessedUrls (.error ()))
        [some (str "feed", [entryV])]
      = ([articleV], [articleV.url]) :=
  (processed_urls_error_fallback fromisoNone 0 (str "feed") entryV articleV).2.2 (by decide)

end SafewayETL
